import Mathlib

/-!
Verification of the Business-Notifications delivery core.

This file gives a shallow embedding, in Lean 4, of the delivery-decision
logic, the bulk-delivery use case, the push-subscription health state
machine, the presence tracker and the mark-as-read use case of the
repository, and proves (or refutes) the specified properties about them.

Conventions of the embedding:
* Instants (`Date` values in the source) are modelled as `Nat` milliseconds
  since the epoch; functions that read the ambient clock (`new Date()`)
  take the instant as an explicit parameter.
* The current time-of-day used by the quiet-hours check
  (`now.getHours() * 60 + now.getMinutes()` in the source) is modelled as a
  `Nat` parameter `currentMinutes` (minutes since local midnight).
* `HH:MM` time strings are modelled already parsed, as an hour and a minute
  component (the source parses them with `split(':').map(Number)`).
* JavaScript `Map`s are modelled as functions into `Option`; `Set`s of
  socket ids as duplicate-free lists (insertion adds only absent elements,
  exactly as `Set.add` does).
* Fallible code (`throw`) is modelled with `Except`/sum results.
-/

/-- `NotificationType` enum of `src/domain/entities/Notification.ts`. -/
inductive NotificationType where
  | INFO
  | SUCCESS
  | WARNING
  | ERROR
  | SYSTEM
deriving DecidableEq, Repr

/-- `NotificationChannel` enum of `src/domain/entities/Notification.ts`. -/
inductive NotificationChannel where
  | IN_APP
  | PUSH
  | WEBSOCKET
  | ALL
deriving DecidableEq, Repr

/-- `NotificationPriority` enum of `src/domain/entities/Notification.ts`. -/
inductive NotificationPriority where
  | LOW
  | NORMAL
  | HIGH
  | URGENT
deriving DecidableEq, Repr

/-- `ChannelPreferences` of `src/domain/entities/UserPreferences.ts`:
per-channel enablement flags for one notification type. -/
structure ChannelPreferences where
  inApp : Bool
  push : Bool
  websocket : Bool
deriving DecidableEq, Repr

/-- `QuietHours` of `src/domain/entities/UserPreferences.ts`. The
`startTime`/`endTime` `HH:MM` strings are modelled parsed into hour and
minute components. -/
structure QuietHours where
  enabled : Bool
  startHour : Nat
  startMinute : Nat
  endHour : Nat
  endMinute : Nat
  timezone : String
deriving DecidableEq, Repr

/-- `UserPreferences` of `src/domain/entities/UserPreferences.ts`. The
per-type preference record is a total function on the closed type enum,
exactly as the `NotificationTypePreferences` record of the source has one
entry per type. Fields not used by any decision logic (`language`,
`soundEnabled`, `vibrationEnabled`, timestamps) are omitted. -/
structure UserPreferences where
  id : String
  userId : String
  preferences : NotificationType → ChannelPreferences
  quietHours : QuietHours

namespace UserPreferences

/-- `UserPreferences.isQuietHours` of the source, with the ambient clock's
time-of-day (`now.getHours() * 60 + now.getMinutes()`) passed in as
`currentMinutes`. -/
def isQuietHours (p : UserPreferences) (currentMinutes : Nat) : Bool :=
  if !p.quietHours.enabled then false
  else
    let startMinutes := p.quietHours.startHour * 60 + p.quietHours.startMinute
    let endMinutes := p.quietHours.endHour * 60 + p.quietHours.endMinute
    if startMinutes < endMinutes then
      decide (currentMinutes ≥ startMinutes) && decide (currentMinutes < endMinutes)
    else
      -- Quiet hours span midnight
      decide (currentMinutes ≥ startMinutes) || decide (currentMinutes < endMinutes)

/-- `UserPreferences.shouldReceiveNotification` of the source. The source
first re-checks `isQuietHours` (its comment defers the URGENT exception to
the domain service), then reads the per-type/per-channel flag. -/
def shouldReceiveNotification (p : UserPreferences) (type : NotificationType)
    (channel : NotificationChannel) (currentMinutes : Nat) : Bool :=
  if p.isQuietHours currentMinutes then false
  else
    let typePrefs := p.preferences type
    match channel with
    | NotificationChannel.IN_APP => typePrefs.inApp
    | NotificationChannel.PUSH => typePrefs.push
    | NotificationChannel.WEBSOCKET => typePrefs.websocket
    | NotificationChannel.ALL => typePrefs.inApp || typePrefs.push || typePrefs.websocket

/-- `UserPreferences.getEnabledChannels` of the source. -/
def getEnabledChannels (p : UserPreferences) (type : NotificationType) :
    List NotificationChannel :=
  let typePrefs := p.preferences type
  (if typePrefs.inApp then [NotificationChannel.IN_APP] else []) ++
  (if typePrefs.push then [NotificationChannel.PUSH] else []) ++
  (if typePrefs.websocket then [NotificationChannel.WEBSOCKET] else [])

end UserPreferences

/-- `NotificationAction` of `src/domain/entities/Notification.ts`. The
`data` payload (typed `any`) is omitted. -/
structure NotificationAction where
  label : String
  url : Option String := none
  action : Option String := none
deriving DecidableEq, Repr

/-- The `Notification` entity of `src/domain/entities/Notification.ts`.
The untyped `metadata` field is omitted; instants are `Nat` milliseconds. -/
structure Notification where
  id : String
  userId : String
  type : NotificationType
  title : String
  message : String
  channels : List NotificationChannel
  priority : NotificationPriority := NotificationPriority.NORMAL
  actions : Option (List NotificationAction) := none
  expiresAt : Option Nat := none
  imageUrl : Option String := none
  iconUrl : Option String := none
  isRead : Bool := false
  readAt : Option Nat := none
  createdAt : Nat := 0
  deliveredAt : Option Nat := none
  failedAt : Option Nat := none
  errorMessage : Option String := none
deriving DecidableEq, Repr

namespace Notification

/-- `Notification.markAsRead` of the source: sets the read flag and the
read timestamp only when the notification is not yet read. `now` is the
instant `new Date()` would produce. -/
def markAsRead (n : Notification) (now : Nat) : Notification :=
  if !n.isRead then { n with isRead := true, readAt := some now } else n

/-- `Notification.isExpired` of the source: `new Date() > this.expiresAt`,
i.e. strictly after the expiry instant; absent expiry is never expired. -/
def isExpired (n : Notification) (now : Nat) : Bool :=
  match n.expiresAt with
  | none => false
  | some e => decide (now > e)

end Notification

/-- Whitespace trimming from both ends of a string (the JavaScript
`String.prototype.trim` used by the validator), defined structurally over
the character list so that proofs can evaluate it. -/
def strTrim (s : String) : String :=
  String.mk (((s.data.dropWhile Char.isWhitespace).reverse.dropWhile
    Char.isWhitespace).reverse)

namespace NotificationDomainService

/-- `NotificationDomainService.shouldSendToUser` of the source: URGENT
notifications branch straight to `shouldReceiveNotification`; all other
priorities are suppressed during quiet hours and otherwise also defer to
`shouldReceiveNotification`. -/
def shouldSendToUser (notification : Notification) (preferences : UserPreferences)
    (channel : NotificationChannel) (currentMinutes : Nat) : Bool :=
  if notification.priority = NotificationPriority.URGENT then
    preferences.shouldReceiveNotification notification.type channel currentMinutes
  else if preferences.isQuietHours currentMinutes then false
  else preferences.shouldReceiveNotification notification.type channel currentMinutes

/-- `NotificationDomainService.getPriorityWeight` of the source. -/
def getPriorityWeight : NotificationPriority → Nat
  | NotificationPriority.LOW => 1
  | NotificationPriority.NORMAL => 2
  | NotificationPriority.HIGH => 3
  | NotificationPriority.URGENT => 4

/-- `NotificationDomainService.filterExpired` of the source: keeps the
notifications for which `isExpired` is false. Each element's `isExpired`
reads the clock; the embedding evaluates the whole filter at one instant
`now`. -/
def filterExpired (notifications : List Notification) (now : Nat) :
    List Notification :=
  notifications.filter (fun n => !n.isExpired now)

/-- `NotificationDomainService.calculateExpiryDate` of the source: the
instant `daysFromNow` days after `now` (calendar-day arithmetic abstracted
to fixed 86400000-millisecond days). -/
def calculateExpiryDate (now : Nat) (daysFromNow : Nat := 30) : Nat :=
  now + daysFromNow * 86400000

/-- `NotificationDomainService.validateNotification` of the source: raises
the first violated invariant as an error, in source order. String `trim`
is modelled by `String.trim`. -/
def validateNotification (n : Notification) (now : Nat) : Except String Unit :=
  if strTrim n.userId = "" then Except.error "User ID is required"
  else if strTrim n.title = "" then Except.error "Notification title is required"
  else if strTrim n.message = "" then Except.error "Notification message is required"
  else if n.title.length > 100 then
    Except.error "Notification title cannot exceed 100 characters"
  else if n.message.length > 500 then
    Except.error "Notification message cannot exceed 500 characters"
  else if n.channels.length = 0 then
    Except.error "At least one notification channel is required"
  else if (match n.expiresAt with | some e => decide (e ≤ now) | none => false) then
    Except.error "Expiration date must be in the future"
  else if (match n.actions with | some as => decide (as.length > 3) | none => false) then
    Except.error "Maximum 3 actions allowed per notification"
  else Except.ok ()

end NotificationDomainService

/-- `DeviceType` enum of `src/domain/entities/PushSubscription.ts`. -/
inductive DeviceType where
  | WEB
  | ANDROID
  | IOS
deriving DecidableEq, Repr

/-- The `PushSubscription` entity. The web-push key pair and the device
info blob play no role in the health state machine and are omitted. -/
structure PushSubscription where
  id : String
  userId : String
  deviceType : DeviceType
  endpoint : String
  fcmToken : Option String := none
  isActive : Bool := true
  createdAt : Nat := 0
  lastUsedAt : Nat := 0
  failureCount : Nat := 0
  lastFailureAt : Option Nat := none
  errorMessage : Option String := none
deriving DecidableEq, Repr

namespace PushSubscription

/-- `PushSubscription.deactivate` of the source. -/
def deactivate (s : PushSubscription) : PushSubscription :=
  { s with isActive := false }

/-- `PushSubscription.activate` of the source. -/
def activate (s : PushSubscription) : PushSubscription :=
  { s with isActive := true, failureCount := 0, errorMessage := none }

/-- `PushSubscription.updateLastUsed` of the source. -/
def updateLastUsed (s : PushSubscription) (now : Nat) : PushSubscription :=
  { s with lastUsedAt := now }

/-- `PushSubscription.recordFailure` of the source: increments the
consecutive-failure counter, stamps the failure, and deactivates once the
counter reaches 3. -/
def recordFailure (s : PushSubscription) (error : String) (now : Nat) :
    PushSubscription :=
  let s1 := { s with
    failureCount := s.failureCount + 1
    lastFailureAt := some now
    errorMessage := some error }
  if s1.failureCount ≥ 3 then s1.deactivate else s1

/-- `PushSubscription.recordSuccess` of the source: resets the counter,
clears the error, updates last-used. -/
def recordSuccess (s : PushSubscription) (now : Nat) : PushSubscription :=
  ({ s with failureCount := 0, errorMessage := none } : PushSubscription).updateLastUsed now

end PushSubscription

/-- A per-subscription provider outcome as reported back by
`sendBatch` (`successful` / `failed` with an error string); the providers
translate an endpoint-gone condition (HTTP 410/404, unregistered FCM
token) into the error string `SUBSCRIPTION_EXPIRED`. -/
inductive ProviderSendResult where
  | success
  | failed (error : String)
deriving DecidableEq, Repr

/-- The per-subscription reconciliation step of
`PushNotificationQueue.processJob`: success records success;
`SUBSCRIPTION_EXPIRED` deactivates immediately; any other error records a
failure (three of which deactivate). -/
def applyProviderResult (s : PushSubscription) (r : ProviderSendResult)
    (now : Nat) : PushSubscription :=
  match r with
  | ProviderSendResult.success => s.recordSuccess now
  | ProviderSendResult.failed e =>
    if e = "SUBSCRIPTION_EXPIRED" then s.deactivate
    else s.recordFailure e now

/-- `BulkNotificationDTO` (also standing in for `CreateNotificationDTO`,
which differs only in carrying one `userId` instead of `userIds`). The
untyped `metadata` field is omitted. -/
structure BulkNotificationDTO where
  userIds : List String
  type : NotificationType
  title : String
  message : String
  channels : Option (List NotificationChannel) := none
  priority : Option NotificationPriority := none
  actions : Option (List NotificationAction) := none
  expiresAt : Option Nat := none
  imageUrl : Option String := none
  iconUrl : Option String := none
deriving DecidableEq, Repr

/-- `NotificationResponseDTO`, as produced by `toResponseDTO`. -/
structure NotificationResponseDTO where
  id : String
  userId : String
  type : NotificationType
  title : String
  message : String
  channels : List NotificationChannel
  priority : NotificationPriority
  actions : Option (List NotificationAction)
  expiresAt : Option Nat
  imageUrl : Option String
  iconUrl : Option String
  isRead : Bool
  readAt : Option Nat
  createdAt : Nat
  deliveredAt : Option Nat
deriving DecidableEq, Repr

/-- `toResponseDTO` of the use cases. -/
def toResponseDTO (n : Notification) : NotificationResponseDTO :=
  { id := n.id, userId := n.userId, type := n.type, title := n.title
    message := n.message, channels := n.channels, priority := n.priority
    actions := n.actions, expiresAt := n.expiresAt, imageUrl := n.imageUrl
    iconUrl := n.iconUrl, isRead := n.isRead, readAt := n.readAt
    createdAt := n.createdAt, deliveredAt := n.deliveredAt }

/-- The external collaborators of the bulk/single creation use cases,
abstracted per recipient: the preferences repository lookup, whether the
notification repository save succeeds for that recipient, the fresh uuid
drawn for that recipient, and the creation instant. -/
structure BulkEnv where
  findPrefs : String → Option UserPreferences
  saveOk : String → Bool
  freshId : String → String
  now : Nat

namespace SendBulkNotifications

/-- The `new Notification(...)` construction shared by
`CreateNotification.execute` and `SendBulkNotifications.execute`: priority
defaults to NORMAL and a missing `expiresAt` is defaulted to
`calculateExpiryDate(30)`. -/
def buildNotification (env : BulkEnv) (dto : BulkNotificationDTO)
    (userId : String) (channels : List NotificationChannel) : Notification :=
  { id := env.freshId userId
    userId := userId
    type := dto.type
    title := dto.title
    message := dto.message
    channels := channels
    priority := dto.priority.getD NotificationPriority.NORMAL
    actions := dto.actions
    expiresAt := some (dto.expiresAt.getD
      (NotificationDomainService.calculateExpiryDate env.now 30))
    imageUrl := dto.imageUrl
    iconUrl := dto.iconUrl
    createdAt := env.now }

/-- Construct, validate and save one recipient's notification; a
validation or save error becomes this recipient's failure reason (the
Mongo repository save throws `Failed to save notification`). -/
def createValidateSave (env : BulkEnv) (dto : BulkNotificationDTO)
    (userId : String) (channels : List NotificationChannel) :
    Sum String NotificationResponseDTO :=
  let notification := buildNotification env dto userId channels
  match NotificationDomainService.validateNotification notification env.now with
  | Except.error e => Sum.inl e
  | Except.ok _ =>
    if env.saveOk userId then Sum.inr (toResponseDTO notification)
    else Sum.inl "Failed to save notification"

/-- The channel resolution of `CreateNotification.execute` and
`SendBulkNotifications.execute`: channels default to `[ALL]` when the
caller supplied none, and are replaced by the preference-derived set only
when a preferences record exists, that set is non-empty, and the caller
supplied no channels. -/
def resolveChannels (dto : BulkNotificationDTO)
    (prefs : Option UserPreferences) : List NotificationChannel :=
  let channels0 := match dto.channels with
    | some cs => cs
    | none => [NotificationChannel.ALL]
  match prefs with
  | some preferences =>
    let enabledChannels := preferences.getEnabledChannels dto.type
    if enabledChannels.length > 0 ∧ dto.channels = none then enabledChannels
    else channels0
  | none => channels0

/-- The per-recipient body of the `for` loop of
`SendBulkNotifications.execute`: resolve channels, and raise the
empty-channel failure only when a preferences record exists and the
resolved channel list is empty at that point; otherwise construct,
validate and save. -/
def processUser (env : BulkEnv) (dto : BulkNotificationDTO) (userId : String) :
    Sum String NotificationResponseDTO :=
  let channels := resolveChannels dto (env.findPrefs userId)
  match env.findPrefs userId with
  | some _ =>
    if channels.length = 0 then
      Sum.inl "User has disabled all channels for this type"
    else createValidateSave env dto userId channels
  | none => createValidateSave env dto userId channels

/-- One entry of the `failed` list of `SendBulkNotifications`. -/
structure BulkFailure where
  userId : String
  error : String
deriving DecidableEq, Repr

/-- The accumulation loop of `SendBulkNotifications.execute` over a
recipient list: successes and failures collected in iteration order. -/
def bulkRun (env : BulkEnv) (dto : BulkNotificationDTO) :
    List String → List NotificationResponseDTO × List BulkFailure
  | [] => ([], [])
  | u :: us =>
    let rest := bulkRun env dto us
    match processUser env dto u with
    | Sum.inr resp => (resp :: rest.1, rest.2)
    | Sum.inl e => (rest.1, ⟨u, e⟩ :: rest.2)

/-- `SendBulkNotifications.execute`. -/
def execute (env : BulkEnv) (dto : BulkNotificationDTO) :
    List NotificationResponseDTO × List BulkFailure :=
  bulkRun env dto dto.userIds

/-- The chunking loop of `SendBulkNotifications.executeBatched` for batch
size `b + 1`: peel off a batch of `b + 1` recipients, run `execute` on it,
recurse on the rest, and concatenate both result lists. -/
def executeBatchedGo (env : BulkEnv) (dto : BulkNotificationDTO) (b : Nat) :
    List String → List NotificationResponseDTO × List BulkFailure
  | [] => ([], [])
  | u :: us =>
    let r1 := execute env { dto with userIds := u :: us.take b }
    let r2 := executeBatchedGo env dto b (us.drop b)
    (r1.1 ++ r2.1, r1.2 ++ r2.2)
  termination_by l => l.length
  decreasing_by simp [List.length_drop]; omega

/-- `SendBulkNotifications.executeBatched`. With batch size 0 and a
non-empty recipient list the source loop would never terminate; the claim
about it only concerns positive batch sizes, and the 0 case here is the
value of the (empty) loop on an empty recipient list. -/
def executeBatched (env : BulkEnv) (dto : BulkNotificationDTO)
    (batchSize : Nat) : List NotificationResponseDTO × List BulkFailure :=
  match batchSize with
  | 0 => ([], [])
  | Nat.succ b => executeBatchedGo env dto b dto.userIds

end SendBulkNotifications

/-- Outcome classifier of `MarkAsRead.execute` (404, 403, the early
already-read return, or a performed mark). -/
inductive MarkAsReadResult where
  | notFound
  | unauthorized
  | alreadyRead
  | marked
deriving DecidableEq, Repr

/-- Result of `MarkAsRead.execute`: the classification, the notification
store after the call, and the number of repository write calls made. -/
structure MarkAsReadOutcome where
  result : MarkAsReadResult
  repo : String → Option Notification
  writes : Nat

namespace MarkAsRead

/-- `MongoNotificationRepository.markAsRead`: sets `isRead` and stamps
`readAt` with the current instant on the stored document. -/
def repoMarkAsRead (repo : String → Option Notification) (id : String)
    (now : Nat) : String → Option Notification :=
  fun x =>
    if x = id then
      (repo x).map (fun n => { n with isRead := true, readAt := some now })
    else repo x

/-- `MarkAsRead.execute` of the source over an abstract notification
store: find by id, 404 when absent, 403 on owner mismatch, early return
without any write when already read, otherwise mark the entity and write
through the repository. -/
def execute (repo : String → Option Notification)
    (notificationId userId : String) (now : Nat) : MarkAsReadOutcome :=
  match repo notificationId with
  | none => ⟨MarkAsReadResult.notFound, repo, 0⟩
  | some n =>
    if n.userId ≠ userId then ⟨MarkAsReadResult.unauthorized, repo, 0⟩
    else if n.isRead then ⟨MarkAsReadResult.alreadyRead, repo, 0⟩
    else ⟨MarkAsReadResult.marked, repoMarkAsRead repo notificationId now, 1⟩

end MarkAsRead

/-- A presence event consumed by the `WebSocketManager`: an authenticated
connect (`addConnection`) or a disconnect (`removeConnection`). Metadata
is an opaque payload, modelled as a string. -/
inductive WSEvent where
  | connect (socketId userId : String) (metadata : Option String)
  | disconnect (socketId : String)
deriving DecidableEq, Repr

/-- The three maps of `WebSocketManager`: `userConnections`
(userId to set of socketIds), `socketUsers` (socketId to userId) and
`userMetadata`. JavaScript `Map`s are modelled as functions into `Option`;
the socket-id `Set` as a duplicate-free list. -/
structure WSState where
  userConnections : String → Option (List String)
  socketUsers : String → Option String
  userMetadata : String → Option String

/-- Point update of a map modelled as a function (`Map.set` with
`some v`, `Map.delete` with `none`). -/
def mapUpdate {α : Type} (f : String → Option α) (k : String) (v : Option α) :
    String → Option α :=
  fun x => if x = k then v else f x

namespace WebSocketManager

/-- The freshly constructed manager: all three maps empty. -/
def initState : WSState :=
  { userConnections := fun _ => none
    socketUsers := fun _ => none
    userMetadata := fun _ => none }

/-- `Set.add` on the socket-id set modelled as a duplicate-free list:
append the id only when absent. -/
def insertSocket (conns : List String) (socketId : String) : List String :=
  if socketId ∈ conns then conns else conns ++ [socketId]

/-- `WebSocketManager.addConnection`: ensure the recipient's socket set
exists, add the socket id (a `Set`, so only if absent), record the
reverse lookup, and store metadata when supplied. -/
def addConnection (st : WSState) (socketId userId : String)
    (metadata : Option String) : WSState :=
  let conns1 := insertSocket ((st.userConnections userId).getD []) socketId
  { userConnections := mapUpdate st.userConnections userId (some conns1)
    socketUsers := mapUpdate st.socketUsers socketId (some userId)
    userMetadata :=
      match metadata with
      | some m => mapUpdate st.userMetadata userId (some m)
      | none => st.userMetadata }

/-- `WebSocketManager.removeConnection`: look the socket's user up, remove
the socket from that user's set, delete the user entry and the metadata
when the set becomes empty, and delete the reverse lookup. Unknown socket
ids are ignored. -/
def removeConnection (st : WSState) (socketId : String) : WSState :=
  match st.socketUsers socketId with
  | none => st
  | some userId =>
    match st.userConnections userId with
    | none => { st with socketUsers := mapUpdate st.socketUsers socketId none }
    | some sockets =>
      if (sockets.erase socketId).length = 0 then
        { st with
          userConnections := mapUpdate st.userConnections userId none
          userMetadata := mapUpdate st.userMetadata userId none
          socketUsers := mapUpdate st.socketUsers socketId none }
      else
        { st with
          userConnections := mapUpdate st.userConnections userId
            (some (sockets.erase socketId))
          socketUsers := mapUpdate st.socketUsers socketId none }

/-- `WebSocketManager.isUserOnline`: the recipient's socket set exists and
is non-empty. -/
def isUserOnline (st : WSState) (userId : String) : Bool :=
  match st.userConnections userId with
  | some sockets => decide (sockets.length > 0)
  | none => false

/-- Apply one presence event to the manager state. -/
def step (st : WSState) : WSEvent → WSState
  | WSEvent.connect c u m => addConnection st c u m
  | WSEvent.disconnect c => removeConnection st c

/-- Run the manager from a fresh state over a sequence of presence
events. -/
def run (events : List WSEvent) : WSState :=
  events.foldl step initState

/-- Modelled from the claim's words, for comparison with the code: the
registry of connections that were registered (`addConnection`) and not
since removed (`removeConnection`), as a map from connection id to the
recipient it was last registered under. -/
def specRegistryFrom (reg : String → Option String) :
    List WSEvent → (String → Option String)
  | [] => reg
  | WSEvent.connect c u _ :: es => specRegistryFrom (mapUpdate reg c (some u)) es
  | WSEvent.disconnect c :: es => specRegistryFrom (mapUpdate reg c none) es

/-- The claim-level registry of still-registered connections after a
sequence of presence events starting from nothing registered. -/
def specRegistry (events : List WSEvent) : String → Option String :=
  specRegistryFrom (fun _ => none) events

/-- A sequence of presence events is rebind-free when no connect
re-registers a connection id that is, at that point, still registered to a
different recipient (re-authenticating the same recipient is allowed;
socket ids are unique per live socket, so this holds for the traces the
socket layer produces). -/
def noRebindFrom (reg : String → Option String) : List WSEvent → Bool
  | [] => true
  | WSEvent.connect c u _ :: es =>
    (reg c = none || reg c = some u) && noRebindFrom (mapUpdate reg c (some u)) es
  | WSEvent.disconnect c :: es => noRebindFrom (mapUpdate reg c none) es

/-- Rebind-freedom from the fresh state. -/
def noRebind (events : List WSEvent) : Bool :=
  noRebindFrom (fun _ => none) events

end WebSocketManager

/-- Simulation invariant tying the manager state to the claim-level
registry: the reverse map agrees with the registry, a socket is in a
recipient's set exactly when the registry binds it to that recipient,
socket sets are duplicate-free and never stored empty, and metadata only
exists for recipients with a socket-set entry. -/
def WSInv (st : WSState) (reg : String → Option String) : Prop :=
  (∀ c, st.socketUsers c = reg c)
  ∧ (∀ u c, c ∈ (st.userConnections u).getD [] ↔ reg c = some u)
  ∧ (∀ u l, st.userConnections u = some l → l.Nodup)
  ∧ (∀ u l, st.userConnections u = some l → l ≠ [])
  ∧ (∀ u, st.userConnections u = none → st.userMetadata u = none)

/-! Concrete fixtures used by counterexamples and witnesses. -/

/-- All three channels enabled for a type. -/
def chAllOn : ChannelPreferences := ⟨true, true, true⟩

/-- All three channels disabled for a type. -/
def chAllOff : ChannelPreferences := ⟨false, false, false⟩

/-- Enabled 22:00 to 08:00 quiet-hours window (wraps midnight). -/
def qhNight : QuietHours := ⟨true, 22, 0, 8, 0, "America/Mexico_City"⟩

/-- Disabled quiet-hours window. -/
def qhOff : QuietHours := ⟨false, 22, 0, 8, 0, "America/Mexico_City"⟩

/-- Preferences with every flag on and the night quiet-hours window. -/
def prefsQuietAllOn : UserPreferences :=
  { id := "p1", userId := "u1", preferences := fun _ => chAllOn, quietHours := qhNight }

/-- Preferences disabling all channels for INFO, quiet hours off. -/
def prefsAllOffInfo : UserPreferences :=
  { id := "p2", userId := "C"
    preferences := fun t => if t = NotificationType.INFO then chAllOff else chAllOn
    quietHours := qhOff }

/-- An URGENT INFO notification directed at the push channel. -/
def urgentInfo : Notification :=
  { id := "n1", userId := "u1", type := NotificationType.INFO, title := "t"
    message := "m", channels := [NotificationChannel.PUSH]
    priority := NotificationPriority.URGENT }

/-- Bulk DTO for recipient C with no explicit channels. -/
def dtoSuppressed : BulkNotificationDTO :=
  { userIds := ["C"], type := NotificationType.INFO, title := "t", message := "m" }

/-- Environment where only recipient C has a preferences record (the one
disabling all channels for INFO) and every save succeeds. -/
def envSuppressed : BulkEnv :=
  { findPrefs := fun u => if u = "C" then some prefsAllOffInfo else none
    saveOk := fun _ => true
    freshId := fun u => u
    now := 1000 }

/-- Bulk DTO whose recipient list names the same id twice. -/
def dtoDup : BulkNotificationDTO :=
  { userIds := ["u", "u"], type := NotificationType.INFO, title := "t", message := "m" }

/-- Bulk DTO with three distinct recipients. -/
def dtoTrio : BulkNotificationDTO :=
  { userIds := ["A", "B", "C"], type := NotificationType.INFO, title := "t", message := "m" }

/-- Environment with no stored preferences and always-succeeding saves. -/
def envNoPrefs : BulkEnv :=
  { findPrefs := fun _ => none, saveOk := fun _ => true
    freshId := fun u => u, now := 1000 }

/-- Notification expiring exactly at instant 1000. -/
def nExpiryNow : Notification :=
  { id := "e0", userId := "u", type := NotificationType.INFO, title := "t"
    message := "m", channels := [NotificationChannel.ALL], expiresAt := some 1000 }

/-- Notification that expired one second before instant 1000. -/
def nExpiryPast : Notification :=
  { id := "e1", userId := "u", type := NotificationType.INFO, title := "t"
    message := "m", channels := [NotificationChannel.ALL], expiresAt := some 0 }

/-- Notification expiring one hour after instant 1000. -/
def nExpiryFuture : Notification :=
  { id := "e2", userId := "u", type := NotificationType.INFO, title := "t"
    message := "m", channels := [NotificationChannel.ALL], expiresAt := some 3601000 }

/-- Notification with no expiry. -/
def nNoExpiry : Notification :=
  { id := "e3", userId := "u", type := NotificationType.INFO, title := "t"
    message := "m", channels := [NotificationChannel.ALL] }

/-- A notification of recipient u1 already marked read at instant 5. -/
def nAlreadyRead : Notification :=
  { id := "r1", userId := "u1", type := NotificationType.INFO, title := "t"
    message := "m", channels := [NotificationChannel.ALL]
    isRead := true, readAt := some 5 }

/-- Store holding only the already-read notification. -/
def repoRead : String → Option Notification :=
  fun x => if x = "r1" then some nAlreadyRead else none

/-- An active web push subscription with a clean failure counter. -/
def subActive : PushSubscription :=
  { id := "s1", userId := "u1", deviceType := DeviceType.WEB, endpoint := "ep" }

/-- Presence trace that re-registers socket c to a second recipient while
it is still registered to the first, then disconnects it. -/
def wsRogueTrace : List WSEvent :=
  [WSEvent.connect "c" "u1" none, WSEvent.connect "c" "u2" none,
   WSEvent.disconnect "c"]

/-- The claim's two-device scenario: u1 connects twice (with metadata) and
the first socket disconnects. -/
def wsTraceTwoConn : List WSEvent :=
  [WSEvent.connect "c1" "u1" (some "meta"), WSEvent.connect "c2" "u1" none,
   WSEvent.disconnect "c1"]

/-- The claim's scenario continued by the second disconnect. -/
def wsTraceAllGone : List WSEvent :=
  wsTraceTwoConn ++ [WSEvent.disconnect "c2"]

namespace SendBulkNotifications

/-- The entry a recipient contributes to the `successful` list, if any. -/
def succEntry (env : BulkEnv) (dto : BulkNotificationDTO) (u : String) :
    Option NotificationResponseDTO :=
  match processUser env dto u with
  | Sum.inr r => some r
  | Sum.inl _ => none

/-- The entry a recipient contributes to the `failed` list, if any. -/
def failEntry (env : BulkEnv) (dto : BulkNotificationDTO) (u : String) :
    Option BulkFailure :=
  match processUser env dto u with
  | Sum.inl e => some ⟨u, e⟩
  | Sum.inr _ => none

end SendBulkNotifications

/-! ## Helper lemmas -/

lemma createValidateSave_inr (env : BulkEnv) (dto : BulkNotificationDTO)
    (u : String) (chs : List NotificationChannel) (r : NotificationResponseDTO)
    (h : SendBulkNotifications.createValidateSave env dto u chs = Sum.inr r) :
    r = toResponseDTO (SendBulkNotifications.buildNotification env dto u chs) := by
  simp only [SendBulkNotifications.createValidateSave] at h
  cases hv : NotificationDomainService.validateNotification
      (SendBulkNotifications.buildNotification env dto u chs) env.now with
  | error e => rw [hv] at h; simp at h
  | ok a =>
    rw [hv] at h
    by_cases hs : env.saveOk u = true
    · rw [if_pos hs] at h
      exact (Sum.inr_injective h).symm
    · rw [if_neg hs] at h
      simp at h

lemma processUser_inr_spec (env : BulkEnv) (dto : BulkNotificationDTO)
    (u : String) (resp : NotificationResponseDTO)
    (h : SendBulkNotifications.processUser env dto u = Sum.inr resp) :
    resp.userId = u ∧ resp.expiresAt.isSome = true := by
  have key : ∀ chs r, SendBulkNotifications.createValidateSave env dto u chs = Sum.inr r →
      r.userId = u ∧ r.expiresAt.isSome = true := by
    intro chs r hr
    rw [createValidateSave_inr env dto u chs r hr]
    exact ⟨rfl, rfl⟩
  simp only [SendBulkNotifications.processUser] at h
  cases hp : env.findPrefs u with
  | none => rw [hp] at h; exact key _ _ h
  | some p =>
    rw [hp] at h
    by_cases hz : (SendBulkNotifications.resolveChannels dto (some p)).length = 0
    · rw [if_pos hz] at h; simp at h
    · rw [if_neg hz] at h; exact key _ _ h

lemma bulkRun_eq (env : BulkEnv) (dto : BulkNotificationDTO) :
    ∀ l, SendBulkNotifications.bulkRun env dto l =
      (l.filterMap (SendBulkNotifications.succEntry env dto),
       l.filterMap (SendBulkNotifications.failEntry env dto)) := by
  intro l
  induction l with
  | nil => rfl
  | cons u us ih =>
    cases hp : SendBulkNotifications.processUser env dto u with
    | inl e =>
      simp [SendBulkNotifications.bulkRun, SendBulkNotifications.succEntry,
        SendBulkNotifications.failEntry, hp, ih, List.filterMap_cons]
    | inr r =>
      simp [SendBulkNotifications.bulkRun, SendBulkNotifications.succEntry,
        SendBulkNotifications.failEntry, hp, ih, List.filterMap_cons]

/-! ## Claim theorems -/

/-- C1 (code evaluated at the claim's failing input): for an URGENT
notification whose per-type/per-channel flag is enabled, inside the
quiet-hours window `shouldSendToUser` returns `false` — quiet hours are
NOT bypassed (the delegated `shouldReceiveNotification` re-checks them) —
while outside the window it returns `true`; so the result differs with the
window and does not equal the enablement flag. -/
theorem urgent_quiet_hours_not_bypassed :
    NotificationDomainService.shouldSendToUser urgentInfo prefsQuietAllOn
        NotificationChannel.PUSH 1380 = false
    ∧ (prefsQuietAllOn.preferences urgentInfo.type).push = true
    ∧ prefsQuietAllOn.isQuietHours 1380 = true
    ∧ urgentInfo.priority = NotificationPriority.URGENT
    ∧ NotificationDomainService.shouldSendToUser urgentInfo prefsQuietAllOn
        NotificationChannel.PUSH 600 = true := by
  decide

/-- C2 (code evaluated at the claim's failing input): recipient C has a
preferences record whose derived enabled-channel set for INFO is empty and
the caller supplied no channels; bulk delivery nevertheless puts C in the
successful list with channels defaulted to `[ALL]`, and the failure list
stays empty — the empty-set check is unreachable because channels were
already defaulted to `[ALL]`. -/
theorem bulk_empty_derived_channels_not_failed :
    (prefsAllOffInfo.getEnabledChannels NotificationType.INFO).length = 0
    ∧ dtoSuppressed.channels = none
    ∧ (envSuppressed.findPrefs "C").isSome = true
    ∧ (SendBulkNotifications.execute envSuppressed dtoSuppressed).2 = []
    ∧ (SendBulkNotifications.execute envSuppressed dtoSuppressed).1.map
        (fun r => r.channels) = [[NotificationChannel.ALL]] := by
  decide

/-- C3: from an active subscription with a zero counter, three transient
failures deactivate (and one or two do not); a success resets the counter
to zero and leaves the active flag as it was; an endpoint-gone provider
result (`SUBSCRIPTION_EXPIRED`) deactivates any subscription immediately. -/
theorem push_subscription_health (s : PushSubscription) (e : String)
    (t1 t2 t3 : Nat) (hact : s.isActive = true) (hcount : s.failureCount = 0) :
    (((s.recordFailure e t1).recordFailure e t2).recordFailure e t3).isActive = false
    ∧ (s.recordFailure e t1).isActive = true
    ∧ ((s.recordFailure e t1).recordFailure e t2).isActive = true
    ∧ (∀ (s0 : PushSubscription) (t : Nat),
        (s0.recordSuccess t).failureCount = 0
        ∧ (s0.recordSuccess t).isActive = s0.isActive)
    ∧ (∀ (s0 : PushSubscription) (t : Nat),
        (applyProviderResult s0 (ProviderSendResult.failed "SUBSCRIPTION_EXPIRED") t).isActive
          = false) := by
  refine ⟨?_, ?_, ?_, ?_, ?_⟩
  · simp [PushSubscription.recordFailure, PushSubscription.deactivate, hcount]
  · simp [PushSubscription.recordFailure, PushSubscription.deactivate, hcount, hact]
  · simp [PushSubscription.recordFailure, PushSubscription.deactivate, hcount, hact]
  · intro s0 t
    exact ⟨rfl, rfl⟩
  · intro s0 t
    rfl

/-- Witness for C3 at a concrete active subscription. -/
theorem push_subscription_health_witness :
    (((subActive.recordFailure "err" 1).recordFailure "err" 2).recordFailure "err" 3).isActive
        = false
    ∧ ((subActive.recordSuccess 7).failureCount = 0)
    ∧ (applyProviderResult subActive (ProviderSendResult.failed "SUBSCRIPTION_EXPIRED") 9).isActive
        = false := by
  have h := push_subscription_health subActive "err" 1 2 3 rfl rfl
  exact ⟨h.1, (h.2.2.2.1 subActive 7).1, h.2.2.2.2 subActive 9⟩

/-- C5 counterexample: a notification whose expiry equals the evaluation
instant is retained by `filterExpired` (the source tests `now > expiresAt`
strictly), contradicting the claim that an expiry at the evaluation
instant is excluded. -/
theorem filter_expired_boundary_cex :
    nExpiryNow.expiresAt = some 1000
    ∧ NotificationDomainService.filterExpired [nExpiryNow] 1000 = [nExpiryNow] := by
  decide

/-- C5 (amended): `filterExpired` returns exactly the notifications that
are not expired — expiry strictly before the evaluation instant excluded,
expiry at or after the instant retained, absent expiry always retained —
and the result is a sublist of the input (order preserved, input intact). -/
theorem filter_expired_spec (ns : List Notification) (now : Nat) :
    (∀ n, n ∈ NotificationDomainService.filterExpired ns now ↔
      n ∈ ns ∧ ∀ e, n.expiresAt = some e → now ≤ e)
    ∧ List.Sublist (NotificationDomainService.filterExpired ns now) ns := by
  constructor
  · intro n
    rw [NotificationDomainService.filterExpired, List.mem_filter]
    have hiff : ((!n.isExpired now) = true) ↔ (∀ e, n.expiresAt = some e → now ≤ e) := by
      cases h : n.expiresAt with
      | none => simp [Notification.isExpired, h]
      | some e => simp [Notification.isExpired, h]
    exact and_congr_right fun _ => hiff
  · rw [NotificationDomainService.filterExpired]
    exact List.filter_sublist ns

/-- Witness for C5's amended theorem: among a just-expired, a future and
an expiry-free notification evaluated at instant 1000, exactly the last
two are retained. -/
theorem filter_expired_spec_witness :
    nExpiryFuture ∈ NotificationDomainService.filterExpired
        [nExpiryPast, nExpiryFuture, nNoExpiry] 1000
    ∧ nNoExpiry ∈ NotificationDomainService.filterExpired
        [nExpiryPast, nExpiryFuture, nNoExpiry] 1000
    ∧ nExpiryPast ∉ NotificationDomainService.filterExpired
        [nExpiryPast, nExpiryFuture, nNoExpiry] 1000 := by
  have h := filter_expired_spec [nExpiryPast, nExpiryFuture, nNoExpiry] 1000
  refine ⟨?_, ?_, ?_⟩
  · exact (h.1 nExpiryFuture).mpr ⟨by simp, by intro e he; simp [nExpiryFuture] at he; omega⟩
  · exact (h.1 nNoExpiry).mpr ⟨by simp, by intro e he; simp [nNoExpiry] at he⟩
  · intro hmem
    have h2 := ((h.1 nExpiryPast).mp hmem).2 0 rfl
    omega

/-- C6: the quiet-hours predicate never fires when disabled; when enabled
with start strictly before end it holds exactly on the half-open same-day
interval; when enabled with start at or after end (window wrapping
midnight) it holds exactly when the time-of-day is at or after start or
strictly before end. -/
theorem quiet_hours_window (p : UserPreferences) (currentMinutes : Nat) :
    (p.quietHours.enabled = false → p.isQuietHours currentMinutes = false)
    ∧ (p.quietHours.enabled = true →
        (p.quietHours.startHour * 60 + p.quietHours.startMinute <
            p.quietHours.endHour * 60 + p.quietHours.endMinute →
          (p.isQuietHours currentMinutes = true ↔
            p.quietHours.startHour * 60 + p.quietHours.startMinute ≤ currentMinutes
            ∧ currentMinutes < p.quietHours.endHour * 60 + p.quietHours.endMinute))
        ∧ (p.quietHours.startHour * 60 + p.quietHours.startMinute ≥
            p.quietHours.endHour * 60 + p.quietHours.endMinute →
          (p.isQuietHours currentMinutes = true ↔
            currentMinutes ≥ p.quietHours.startHour * 60 + p.quietHours.startMinute
            ∨ currentMinutes < p.quietHours.endHour * 60 + p.quietHours.endMinute))) := by
  refine ⟨fun h => ?_, fun h => ⟨fun hlt => ?_, fun hge => ?_⟩⟩
  · simp [UserPreferences.isQuietHours, h]
  · simp [UserPreferences.isQuietHours, h, hlt]
  · rw [UserPreferences.isQuietHours]
    simp only [h, Bool.not_true, Bool.false_eq_true, if_false]
    rw [if_neg (Nat.not_lt.mpr hge)]
    simp

/-- Witness for C6 at the 22:00 to 08:00 window: 23:00 is suppressed,
09:00 is not. -/
theorem quiet_hours_window_witness :
    prefsQuietAllOn.isQuietHours 1380 = true
    ∧ prefsQuietAllOn.isQuietHours 540 = false := by
  have h1 := quiet_hours_window prefsQuietAllOn 1380
  have h2 := quiet_hours_window prefsQuietAllOn 540
  constructor
  · exact ((h1.2 rfl).2 (by decide)).mpr (Or.inl (by decide))
  · have hiff := (h2.2 rfl).2 (by decide)
    cases hb : prefsQuietAllOn.isQuietHours 540
    · rfl
    · exact absurd (hiff.mp hb) (by decide)

/-- C9: when the notification is found, owned by the caller, and already
read, `MarkAsRead.execute` classifies it as already read, performs no
repository write, leaves the store untouched, and the entity-level
`markAsRead` is a no-op preserving the original `readAt`. -/
theorem mark_as_read_idempotent (repo : String → Option Notification)
    (notificationId userId : String) (now : Nat) (n : Notification)
    (hfind : repo notificationId = some n) (howner : n.userId = userId)
    (hread : n.isRead = true) :
    (MarkAsRead.execute repo notificationId userId now).result
        = MarkAsReadResult.alreadyRead
    ∧ (MarkAsRead.execute repo notificationId userId now).repo = repo
    ∧ (MarkAsRead.execute repo notificationId userId now).writes = 0
    ∧ n.markAsRead now = n := by
  unfold MarkAsRead.execute
  rw [hfind]
  simp [howner, hread, Notification.markAsRead]

/-- Witness for C9 on a store holding one already-read notification. -/
theorem mark_as_read_idempotent_witness :
    (MarkAsRead.execute repoRead "r1" "u1" 99).result = MarkAsReadResult.alreadyRead
    ∧ (MarkAsRead.execute repoRead "r1" "u1" 99).repo = repoRead
    ∧ (MarkAsRead.execute repoRead "r1" "u1" 99).writes = 0
    ∧ nAlreadyRead.markAsRead 99 = nAlreadyRead :=
  mark_as_read_idempotent repoRead "r1" "u1" 99 nAlreadyRead (by decide) rfl rfl

/-- C10: every notification constructed by the single/bulk creation path
carries a non-null expiry (a missing DTO `expiresAt` is defaulted to 30
days after the creation instant), and so every successful bulk response
has one. -/
theorem created_expiry_nonnull (env : BulkEnv) (dto : BulkNotificationDTO)
    (userId : String) (channels : List NotificationChannel) :
    (SendBulkNotifications.buildNotification env dto userId channels).expiresAt.isSome = true
    ∧ (dto.expiresAt = none →
        (SendBulkNotifications.buildNotification env dto userId channels).expiresAt
          = some (env.now + 30 * 86400000))
    ∧ ∀ resp ∈ (SendBulkNotifications.execute env dto).1, resp.expiresAt.isSome = true := by
  refine ⟨rfl, fun h => ?_, fun resp hresp => ?_⟩
  · simp [SendBulkNotifications.buildNotification, h,
      NotificationDomainService.calculateExpiryDate]
  · rw [SendBulkNotifications.execute, bulkRun_eq] at hresp
    simp only [List.mem_filterMap] at hresp
    obtain ⟨u, _, hu⟩ := hresp
    rw [SendBulkNotifications.succEntry] at hu
    cases hp : SendBulkNotifications.processUser env dto u with
    | inl e => rw [hp] at hu; simp at hu
    | inr r =>
      rw [hp] at hu
      simp only [Option.some_inj] at hu
      subst hu
      exact (processUser_inr_spec env dto u r hp).2

/-- Witness for C10: a DTO without expiry produces the 30-day default, and
the concrete bulk run's single success carries a non-null expiry. -/
theorem created_expiry_nonnull_witness :
    (SendBulkNotifications.buildNotification envNoPrefs dtoDup "u"
        [NotificationChannel.ALL]).expiresAt = some (1000 + 30 * 86400000) := by
  exact (created_expiry_nonnull envNoPrefs dtoDup "u" [NotificationChannel.ALL]).2.1 rfl

lemma bulkRun_length (env : BulkEnv) (dto : BulkNotificationDTO) :
    ∀ l, (SendBulkNotifications.bulkRun env dto l).1.length
      + (SendBulkNotifications.bulkRun env dto l).2.length = l.length := by
  intro l
  induction l with
  | nil => rfl
  | cons u us ih =>
    cases hp : SendBulkNotifications.processUser env dto u <;>
      simp [SendBulkNotifications.bulkRun, hp] <;> omega

lemma bulkRun_ids_perm (env : BulkEnv) (dto : BulkNotificationDTO) :
    ∀ l, List.Perm
      ((SendBulkNotifications.bulkRun env dto l).1.map (fun r => r.userId)
        ++ (SendBulkNotifications.bulkRun env dto l).2.map (fun f => f.userId)) l := by
  intro l
  induction l with
  | nil => simp [SendBulkNotifications.bulkRun]
  | cons u us ih =>
    cases hp : SendBulkNotifications.processUser env dto u with
    | inr r =>
      have hu : r.userId = u := (processUser_inr_spec env dto u r hp).1
      simp only [SendBulkNotifications.bulkRun, hp, List.map_cons, List.cons_append, hu]
      exact List.Perm.cons u ih
    | inl e =>
      simp only [SendBulkNotifications.bulkRun, hp, List.map_cons]
      exact List.Perm.trans List.perm_middle (List.Perm.cons u ih)

/-- C4 (amended): bulk delivery yields exactly one outcome entry per
occurrence of a recipient id in the input — the two lists' lengths sum to
the input length and their id lists are a permutation of the input, hence
duplicate-free whenever the input is — each recipient's per-recipient
failure or success lands in the respective list, and a recipient's outcome
depends only on that recipient's own collaborator data, so no other
recipient's error can change it. -/
theorem bulk_outcomes (env : BulkEnv) (dto : BulkNotificationDTO) :
    ((SendBulkNotifications.execute env dto).1.length
      + (SendBulkNotifications.execute env dto).2.length = dto.userIds.length)
    ∧ List.Perm
        ((SendBulkNotifications.execute env dto).1.map (fun r => r.userId)
          ++ (SendBulkNotifications.execute env dto).2.map (fun f => f.userId))
        dto.userIds
    ∧ (dto.userIds.Nodup →
        ((SendBulkNotifications.execute env dto).1.map (fun r => r.userId)
          ++ (SendBulkNotifications.execute env dto).2.map (fun f => f.userId)).Nodup)
    ∧ (∀ u e, SendBulkNotifications.processUser env dto u = Sum.inl e →
        u ∈ dto.userIds →
        (⟨u, e⟩ : SendBulkNotifications.BulkFailure)
          ∈ (SendBulkNotifications.execute env dto).2)
    ∧ (∀ u r, SendBulkNotifications.processUser env dto u = Sum.inr r →
        u ∈ dto.userIds → r ∈ (SendBulkNotifications.execute env dto).1)
    ∧ (∀ env2 : BulkEnv, env2.now = env.now →
        ∀ u, env2.findPrefs u = env.findPrefs u → env2.saveOk u = env.saveOk u →
          env2.freshId u = env.freshId u →
          SendBulkNotifications.processUser env2 dto u
            = SendBulkNotifications.processUser env dto u) := by
  refine ⟨bulkRun_length env dto dto.userIds, bulkRun_ids_perm env dto dto.userIds,
    fun hnd => ((bulkRun_ids_perm env dto dto.userIds).nodup_iff).mpr hnd,
    fun u e hp hu => ?_, fun u r hp hu => ?_,
    fun env2 hnow u hfind hsave hfresh => ?_⟩
  · rw [SendBulkNotifications.execute, bulkRun_eq]
    simp only [List.mem_filterMap]
    exact ⟨u, hu, by simp [SendBulkNotifications.failEntry, hp]⟩
  · rw [SendBulkNotifications.execute, bulkRun_eq]
    simp only [List.mem_filterMap]
    exact ⟨u, hu, by simp [SendBulkNotifications.succEntry, hp]⟩
  · simp only [SendBulkNotifications.processUser, SendBulkNotifications.resolveChannels,
      SendBulkNotifications.createValidateSave, SendBulkNotifications.buildNotification,
      hnow, hfind, hsave, hfresh]

/-- C4 counterexample: with the recipient list naming the same id twice,
both occurrences succeed and the result carries two entries for that id —
the lists do not contain exactly one entry per recipient id. -/
theorem bulk_duplicate_ids_cex :
    ((SendBulkNotifications.execute envNoPrefs dtoDup).1.map (fun r => r.userId)
      ++ (SendBulkNotifications.execute envNoPrefs dtoDup).2.map (fun f => f.userId))
      = ["u", "u"]
    ∧ ¬ (["u", "u"] : List String).Nodup := by
  decide

/-- Witness for C4's amended theorem on three distinct recipients. -/
theorem bulk_outcomes_witness :
    (SendBulkNotifications.execute envNoPrefs dtoTrio).1.length
      + (SendBulkNotifications.execute envNoPrefs dtoTrio).2.length = 3
    ∧ ((SendBulkNotifications.execute envNoPrefs dtoTrio).1.map (fun r => r.userId)
        ++ (SendBulkNotifications.execute envNoPrefs dtoTrio).2.map
          (fun f => f.userId)).Nodup := by
  have h := bulk_outcomes envNoPrefs dtoTrio
  exact ⟨h.1, h.2.2.1 (by decide)⟩

lemma processUser_userIds_irrel (env : BulkEnv) (dto : BulkNotificationDTO)
    (l : List String) (u : String) :
    SendBulkNotifications.processUser env { dto with userIds := l } u
      = SendBulkNotifications.processUser env dto u := rfl

lemma bulkRun_userIds_irrel (env : BulkEnv) (dto : BulkNotificationDTO)
    (l : List String) :
    ∀ xs, SendBulkNotifications.bulkRun env { dto with userIds := l } xs
      = SendBulkNotifications.bulkRun env dto xs := by
  intro xs
  induction xs with
  | nil => rfl
  | cons u us ih =>
    simp only [SendBulkNotifications.bulkRun, processUser_userIds_irrel, ih]

lemma bulkRun_append (env : BulkEnv) (dto : BulkNotificationDTO) :
    ∀ xs ys, SendBulkNotifications.bulkRun env dto (xs ++ ys)
      = ((SendBulkNotifications.bulkRun env dto xs).1
          ++ (SendBulkNotifications.bulkRun env dto ys).1,
         (SendBulkNotifications.bulkRun env dto xs).2
          ++ (SendBulkNotifications.bulkRun env dto ys).2) := by
  intro xs ys
  induction xs with
  | nil => simp [SendBulkNotifications.bulkRun]
  | cons u us ih =>
    cases hp : SendBulkNotifications.processUser env dto u <;>
      simp [SendBulkNotifications.bulkRun, hp, ih]

lemma executeBatchedGo_eq (env : BulkEnv) (dto : BulkNotificationDTO) (b : Nat) :
    ∀ l, SendBulkNotifications.executeBatchedGo env dto b l
      = SendBulkNotifications.bulkRun env dto l := by
  have main : ∀ n (l : List String), l.length ≤ n →
      SendBulkNotifications.executeBatchedGo env dto b l
        = SendBulkNotifications.bulkRun env dto l := by
    intro n
    induction n with
    | zero =>
      intro l hl
      have : l = [] := List.eq_nil_of_length_eq_zero (Nat.le_zero.mp hl)
      subst this
      simp [SendBulkNotifications.executeBatchedGo, SendBulkNotifications.bulkRun]
    | succ n ih =>
      intro l hl
      match l with
      | [] => simp [SendBulkNotifications.executeBatchedGo, SendBulkNotifications.bulkRun]
      | u :: us =>
        have h1 : SendBulkNotifications.execute env { dto with userIds := u :: us.take b }
            = SendBulkNotifications.bulkRun env dto (u :: us.take b) := by
          rw [SendBulkNotifications.execute]
          exact bulkRun_userIds_irrel env dto _ _
        have h2 : SendBulkNotifications.executeBatchedGo env dto b (us.drop b)
            = SendBulkNotifications.bulkRun env dto (us.drop b) := by
          apply ih
          simp only [List.length_drop]
          simp only [List.length_cons] at hl
          omega
        simp only [SendBulkNotifications.executeBatchedGo, h1, h2]
        rw [← bulkRun_append env dto (u :: us.take b) (us.drop b)]
        rw [List.cons_append, List.take_append_drop]
  intro l
  exact main l.length l (le_refl _)

/-- C7: for every positive batch size, the chunked bulk delivery returns
exactly the same successful and failed lists (same entries, same reasons,
even the same order) as the unchunked bulk delivery. -/
theorem executeBatched_eq_execute (env : BulkEnv) (dto : BulkNotificationDTO)
    (b : Nat) (hb : 0 < b) :
    SendBulkNotifications.executeBatched env dto b
      = SendBulkNotifications.execute env dto := by
  cases b with
  | zero => omega
  | succ b' => exact executeBatchedGo_eq env dto b' dto.userIds

/-- Witness for C7: batch size 2 over three recipients agrees with the
unchunked run. -/
theorem executeBatched_eq_execute_witness :
    SendBulkNotifications.executeBatched envNoPrefs dtoTrio 2
      = SendBulkNotifications.execute envNoPrefs dtoTrio :=
  executeBatched_eq_execute envNoPrefs dtoTrio 2 (by decide)

lemma mem_insertSocket (conns : List String) (c c' : String) :
    c' ∈ WebSocketManager.insertSocket conns c ↔ c' ∈ conns ∨ c' = c := by
  rw [WebSocketManager.insertSocket]
  by_cases hcm : c ∈ conns
  · rw [if_pos hcm]
    constructor
    · exact Or.inl
    · rintro (h | rfl)
      · exact h
      · exact hcm
  · rw [if_neg hcm]
    simp [List.mem_append]

lemma insertSocket_nodup (conns : List String) (c : String)
    (h : conns.Nodup) : (WebSocketManager.insertSocket conns c).Nodup := by
  rw [WebSocketManager.insertSocket]
  by_cases hcm : c ∈ conns
  · rw [if_pos hcm]; exact h
  · rw [if_neg hcm]
    simp [List.nodup_append, h, hcm]

lemma insertSocket_ne_nil (conns : List String) (c : String) :
    WebSocketManager.insertSocket conns c ≠ [] := by
  rw [WebSocketManager.insertSocket]
  by_cases hcm : c ∈ conns
  · rw [if_pos hcm]
    exact List.ne_nil_of_mem hcm
  · rw [if_neg hcm]
    simp

lemma wsinv_initial : WSInv WebSocketManager.initState (fun _ => none) := by
  refine ⟨fun c => rfl, fun u c => ?_, fun u l h => ?_, fun u l h => ?_, fun u h => rfl⟩
  · simp [WebSocketManager.initState]
  · exact Option.noConfusion h
  · exact Option.noConfusion h

lemma wsinv_connect (st : WSState) (reg : String → Option String)
    (c u : String) (m : Option String) (hinv : WSInv st reg)
    (hc : reg c = none ∨ reg c = some u) :
    WSInv (WebSocketManager.addConnection st c u m) (mapUpdate reg c (some u)) := by
  obtain ⟨ha, hb, hnd, hne, hmeta⟩ := hinv
  simp only [WebSocketManager.addConnection]
  refine ⟨fun c' => ?_, fun u' c' => ?_, fun u0 l0 h0 => ?_, fun u0 l0 h0 => ?_,
    fun u0 h0 => ?_⟩
  · by_cases h : c' = c <;> simp [mapUpdate, h, ha c']
  · by_cases hu' : u' = u
    · by_cases hc' : c' = c
      · simp [mapUpdate, hu', hc', mem_insertSocket]
      · simp only [mapUpdate, hu', if_pos rfl, Option.getD_some, mem_insertSocket,
          hc', or_false, if_neg hc', eq_self_iff_true, ite_true, ite_false]
        exact hb u c'
    · by_cases hc' : c' = c
      · subst hc'
        simp only [mapUpdate, if_neg hu']
        constructor
        · intro hl
          exfalso
          have hr := (hb u' c').mp hl
          rcases hc with h | h
          · rw [h] at hr; cases hr
          · rw [h] at hr
            exact hu' (Option.some_inj.mp hr).symm
        · intro hr
          simp only [eq_self_iff_true, ite_true, Option.some_inj] at hr
          exact absurd hr.symm hu'
      · simp only [mapUpdate, if_neg hu', if_neg hc']
        exact hb u' c'
  · by_cases hu0 : u0 = u
    · simp only [mapUpdate, hu0, eq_self_iff_true, ite_true, Option.some_inj] at h0
      rw [← h0]
      apply insertSocket_nodup
      cases hsc : st.userConnections u with
      | none => simp
      | some l1 => simpa using hnd u l1 hsc
    · simp only [mapUpdate, if_neg hu0] at h0
      exact hnd u0 l0 h0
  · by_cases hu0 : u0 = u
    · simp only [mapUpdate, hu0, eq_self_iff_true, ite_true, Option.some_inj] at h0
      rw [← h0]
      apply insertSocket_ne_nil
    · simp only [mapUpdate, if_neg hu0] at h0
      exact hne u0 l0 h0
  · by_cases hu0 : u0 = u
    · simp [mapUpdate, hu0] at h0
    · simp only [mapUpdate, if_neg hu0] at h0
      cases m with
      | some mv =>
        simp only [mapUpdate, if_neg hu0]
        exact hmeta u0 h0
      | none => exact hmeta u0 h0

lemma wsinv_disconnect (st : WSState) (reg : String → Option String)
    (c : String) (hinv : WSInv st reg) :
    WSInv (WebSocketManager.removeConnection st c) (mapUpdate reg c none) := by
  obtain ⟨ha, hb, hnd, hne, hmeta⟩ := hinv
  cases hsu : st.socketUsers c with
  | none =>
    have hregc : reg c = none := by rw [← ha c, hsu]
    simp only [WebSocketManager.removeConnection, hsu]
    refine ⟨fun c' => ?_, fun u' c' => ?_, hnd, hne, hmeta⟩
    · by_cases h : c' = c <;> simp [mapUpdate, h, hsu, ha c', hregc]
    · by_cases h : c' = c
      · subst h
        simp only [mapUpdate, eq_self_iff_true, ite_true]
        constructor
        · intro hl
          exfalso
          have hr := (hb u' c').mp hl
          rw [hregc] at hr
          cases hr
        · intro hr; cases hr
      · simp only [mapUpdate, if_neg h]
        exact hb u' c'
  | some u =>
    have hregc : reg c = some u := by rw [← ha c, hsu]
    have hcu : c ∈ (st.userConnections u).getD [] := (hb u c).mpr hregc
    cases hsc : st.userConnections u with
    | none => rw [hsc] at hcu; simp at hcu
    | some sockets =>
      rw [hsc] at hcu
      simp only [Option.getD_some] at hcu
      have hsnd : sockets.Nodup := hnd u sockets hsc
      simp only [WebSocketManager.removeConnection, hsu, hsc]
      by_cases hz : (sockets.erase c).length = 0
      · rw [if_pos hz]
        have herase : sockets.erase c = [] := List.length_eq_zero.mp hz
        refine ⟨fun c' => ?_, fun u' c' => ?_, fun u0 l0 h0 => ?_, fun u0 l0 h0 => ?_,
          fun u0 h0 => ?_⟩
        · by_cases h : c' = c <;> simp [mapUpdate, h, ha c']
        · by_cases hu' : u' = u
          · simp only [mapUpdate, hu', eq_self_iff_true, ite_true, Option.getD_none,
              List.not_mem_nil, false_iff]
            by_cases h : c' = c
            · simp [h]
            · simp only [if_neg h]
              intro hr
              have hmem := (hb u c').mpr hr
              rw [hsc] at hmem
              simp only [Option.getD_some] at hmem
              have hin : c' ∈ sockets.erase c :=
                (List.Nodup.mem_erase_iff hsnd).mpr ⟨h, hmem⟩
              rw [herase] at hin
              cases hin
          · simp only [mapUpdate, if_neg hu']
            by_cases h : c' = c
            · subst h
              simp only [eq_self_iff_true, ite_true]
              constructor
              · intro hmem
                exfalso
                have hr := (hb u' c').mp hmem
                rw [hregc] at hr
                exact hu' (Option.some_inj.mp hr).symm
              · intro hr; cases hr
            · simp only [if_neg h]
              exact hb u' c'
        · by_cases hu0 : u0 = u
          · simp [mapUpdate, hu0] at h0
          · simp only [mapUpdate, if_neg hu0] at h0
            exact hnd u0 l0 h0
        · by_cases hu0 : u0 = u
          · simp [mapUpdate, hu0] at h0
          · simp only [mapUpdate, if_neg hu0] at h0
            exact hne u0 l0 h0
        · by_cases hu0 : u0 = u
          · simp [mapUpdate, hu0]
          · simp only [mapUpdate, if_neg hu0] at h0 ⊢
            exact hmeta u0 h0
      · rw [if_neg hz]
        have herase_ne : sockets.erase c ≠ [] := by
          intro hh
          apply hz
          rw [hh]
          rfl
        refine ⟨fun c' => ?_, fun u' c' => ?_, fun u0 l0 h0 => ?_, fun u0 l0 h0 => ?_,
          fun u0 h0 => ?_⟩
        · by_cases h : c' = c <;> simp [mapUpdate, h, ha c']
        · by_cases hu' : u' = u
          · simp only [mapUpdate, hu', eq_self_iff_true, ite_true, Option.getD_some]
            rw [List.Nodup.mem_erase_iff hsnd]
            by_cases h : c' = c
            · simp [h]
            · simp only [if_neg h, h, ne_eq, not_false_iff, true_and]
              have hbs := hb u c'
              rw [hsc] at hbs
              simpa using hbs
          · simp only [mapUpdate, if_neg hu']
            by_cases h : c' = c
            · subst h
              simp only [eq_self_iff_true, ite_true]
              constructor
              · intro hmem
                exfalso
                have hr := (hb u' c').mp hmem
                rw [hregc] at hr
                exact hu' (Option.some_inj.mp hr).symm
              · intro hr; cases hr
            · simp only [if_neg h]
              exact hb u' c'
        · by_cases hu0 : u0 = u
          · simp only [mapUpdate, hu0, eq_self_iff_true, ite_true, Option.some_inj] at h0
            rw [← h0]
            exact List.Nodup.erase c hsnd
          · simp only [mapUpdate, if_neg hu0] at h0
            exact hnd u0 l0 h0
        · by_cases hu0 : u0 = u
          · simp only [mapUpdate, hu0, eq_self_iff_true, ite_true, Option.some_inj] at h0
            rw [← h0]
            exact herase_ne
          · simp only [mapUpdate, if_neg hu0] at h0
            exact hne u0 l0 h0
        · by_cases hu0 : u0 = u
          · simp [mapUpdate, hu0] at h0
          · simp only [mapUpdate, if_neg hu0] at h0
            exact hmeta u0 h0

lemma wsinv_run : ∀ (es : List WSEvent) (st : WSState) (reg : String → Option String),
    WebSocketManager.noRebindFrom reg es = true → WSInv st reg →
    WSInv (es.foldl WebSocketManager.step st)
      (WebSocketManager.specRegistryFrom reg es) := by
  intro es
  induction es with
  | nil => intro st reg _ hinv; exact hinv
  | cons e es ih =>
    intro st reg hval hinv
    cases e with
    | connect c u m =>
      simp only [WebSocketManager.noRebindFrom, Bool.and_eq_true, Bool.or_eq_true,
        decide_eq_true_eq] at hval
      exact ih _ _ hval.2 (wsinv_connect st reg c u m hinv hval.1)
    | disconnect c =>
      simp only [WebSocketManager.noRebindFrom] at hval
      exact ih _ _ hval (wsinv_disconnect st reg c hinv)

/-- C8 (amended): for every presence-event sequence in which no connect
re-registers a connection id still registered to a different recipient
(always true of the socket layer, whose connection ids are unique per live
socket), a recipient is online exactly when some connection id was
registered to them and not since removed; and a recipient with no such
connection has no socket-set entry and no retained metadata. -/
theorem presence_online_iff (es : List WSEvent)
    (h : WebSocketManager.noRebind es = true) :
    (∀ u, WebSocketManager.isUserOnline (WebSocketManager.run es) u = true ↔
      ∃ c, WebSocketManager.specRegistry es c = some u)
    ∧ (∀ u, (¬ ∃ c, WebSocketManager.specRegistry es c = some u) →
        (WebSocketManager.run es).userConnections u = none
        ∧ (WebSocketManager.run es).userMetadata u = none) := by
  have hinv : WSInv (WebSocketManager.run es) (WebSocketManager.specRegistry es) :=
    wsinv_run es WebSocketManager.initState (fun _ => none) h wsinv_initial
  obtain ⟨ha, hb, hnd, hne, hmeta⟩ := hinv
  constructor
  · intro u
    constructor
    · intro hon
      rw [WebSocketManager.isUserOnline] at hon
      cases hsc : (WebSocketManager.run es).userConnections u with
      | none => rw [hsc] at hon; cases hon
      | some sockets =>
        rw [hsc] at hon
        simp only [decide_eq_true_eq] at hon
        obtain ⟨c, hcmem⟩ := List.exists_mem_of_length_pos hon
        refine ⟨c, (hb u c).mp ?_⟩
        rw [hsc]
        simpa using hcmem
    · rintro ⟨c, hc⟩
      have hmem := (hb u c).mpr hc
      rw [WebSocketManager.isUserOnline]
      cases hsc : (WebSocketManager.run es).userConnections u with
      | none => rw [hsc] at hmem; simp at hmem
      | some sockets =>
        rw [hsc] at hmem
        simp only [Option.getD_some] at hmem
        simp only [decide_eq_true_eq]
        exact List.length_pos_of_mem hmem
  · intro u hno
    have huc : (WebSocketManager.run es).userConnections u = none := by
      cases hsc : (WebSocketManager.run es).userConnections u with
      | none => rfl
      | some sockets =>
        exfalso
        obtain ⟨c, hcmem⟩ := List.exists_mem_of_ne_nil sockets (hne u sockets hsc)
        refine hno ⟨c, (hb u c).mp ?_⟩
        rw [hsc]
        simpa using hcmem
    exact ⟨huc, hmeta u huc⟩

/-- C8 counterexample: re-registering socket c to a second recipient and
then disconnecting it leaves the first recipient reported online by the
code, although no connection registered to them remains unremoved — the
claim's characterization fails on this event sequence. -/
theorem presence_rebind_cex :
    WebSocketManager.isUserOnline (WebSocketManager.run wsRogueTrace) "u1" = true
    ∧ ¬ ∃ c, WebSocketManager.specRegistry wsRogueTrace c = some "u1" := by
  constructor
  · decide
  · rintro ⟨c, hc⟩
    have hnone : WebSocketManager.specRegistry wsRogueTrace c = none := by
      simp only [WebSocketManager.specRegistry, WebSocketManager.specRegistryFrom,
        wsRogueTrace, mapUpdate]
      by_cases h : c = "c" <;> simp [h]
    rw [hnone] at hc
    cases hc

/-- Witness for C8's amended theorem: the claim's own scenario — two
connections of u1, first disconnects, u1 still online; after the second
disconnect u1 is offline and the socket-set entry and metadata are gone. -/
theorem presence_online_iff_witness :
    WebSocketManager.isUserOnline (WebSocketManager.run wsTraceTwoConn) "u1" = true
    ∧ WebSocketManager.isUserOnline (WebSocketManager.run wsTraceAllGone) "u1" = false
    ∧ (WebSocketManager.run wsTraceAllGone).userConnections "u1" = none
    ∧ (WebSocketManager.run wsTraceAllGone).userMetadata "u1" = none := by
  have h1 := presence_online_iff wsTraceTwoConn (by decide)
  have h2 := presence_online_iff wsTraceAllGone (by decide)
  have hno : ¬ ∃ c, WebSocketManager.specRegistry wsTraceAllGone c = some "u1" := by
    rintro ⟨c, hc⟩
    have hnone : WebSocketManager.specRegistry wsTraceAllGone c = none := by
      simp only [WebSocketManager.specRegistry, WebSocketManager.specRegistryFrom,
        wsTraceAllGone, wsTraceTwoConn, List.cons_append, List.nil_append, mapUpdate]
      by_cases ha1 : c = "c1" <;> by_cases ha2 : c = "c2" <;> simp [ha1, ha2]
    rw [hnone] at hc
    cases hc
  have hrel := h2.2 "u1" hno
  refine ⟨?_, ?_, hrel.1, hrel.2⟩
  · exact (h1.1 "u1").mpr ⟨"c2", by decide⟩
  · cases hb2 : WebSocketManager.isUserOnline (WebSocketManager.run wsTraceAllGone) "u1"
    · rfl
    · exact absurd ((h2.1 "u1").mp hb2) hno
